import Mathlib

/-
Verification development for the Realtime Session Orchestrator of the
voice-agent dashboard. Each definition is a shallow embedding of a function
from the repository sources; file and line references are given in the
doc comments.
-/

set_option maxHeartbeats 1000000

namespace Spec2Proof

/- ── Substring matching (models JavaScript String.prototype.includes) ── -/

/-- Checks whether the first list is an initial segment of the second. -/
def startsWithChars : List Char → List Char → Bool
  | [], _ => true
  | _ :: _, [] => false
  | p :: ps, c :: cs => p == c && startsWithChars ps cs

/-- Checks whether the pattern occurs contiguously inside the list. -/
def hasSubChars (pat : List Char) : List Char → Bool
  | [] => pat.isEmpty
  | c :: cs => startsWithChars pat (c :: cs) || hasSubChars pat cs

/-- Models the JavaScript call s.includes(pat). -/
def hasSub (s pat : String) : Bool := hasSubChars pat.toList s.toList

/- ── RemoteBotLifecycleMonitor (src/dashboard/pages/demo.js, meet demo) ── -/

/-- Local lifecycle view of the remote bot, the uiState variable of
updateStatusUI (demo.js lines 446-478). -/
inductive UiState
  | joining
  | inCall
  | done
  | error
deriving DecidableEq, Repr

/-- Status-code to local-state mapping of updateStatusUI
(demo.js lines 454-473), including the redundant exact-match checks that
the source repeats next to the substring checks. The final fallthrough
leaves the initial value, joining. -/
def updateStatusUiState (statusCode : String) : UiState :=
  if hasSub statusCode "in_call" || statusCode == "active" then
    UiState.inCall
  else if hasSub statusCode "joining" || statusCode == "scheduling" || statusCode == "joining" then
    UiState.joining
  else if hasSub statusCode "waiting_room" then
    UiState.joining
  else if hasSub statusCode "done" || hasSub statusCode "ended" || statusCode == "ended" then
    UiState.done
  else if hasSub statusCode "fatal" || hasSub statusCode "error" then
    UiState.error
  else
    UiState.joining

/-- Auto-stop condition of the poll loop in startStatusPolling
(demo.js line 493): polling is cleared only when the remote status contains
"done" or "ended". -/
def pollShouldStop (status : String) : Bool :=
  hasSub status "done" || hasSub status "ended"

/-- Monitor state relevant to the polling loop: whether the interval timer
is installed, and the last derived lifecycle view. -/
structure MonitorState where
  timerActive : Bool
  uiState : UiState
deriving DecidableEq, Repr

/-- One tick of the polling loop in startStatusPolling
(demo.js lines 484-501): when the timer is not active no poll occurs;
otherwise the response status is mapped through updateStatusUI and the
timer is cleared exactly when the auto-stop condition holds. -/
def pollTick (st : MonitorState) (status : String) : MonitorState :=
  if st.timerActive then
    { timerActive := !(pollShouldStop status), uiState := updateStatusUiState status }
  else
    st

/- ── WebhookDispatcher (src/unnamed/part_001 proxy, voice-test.js fireWebhook) ── -/

/-- Outcome of the POST that the server proxy makes to the configured
webhook URL: either an HTTP response arrived, or the request threw a
network error. -/
inductive UpstreamOutcome
  | reply (status : Nat) (body : List Char)
  | netError (msg : String)
deriving DecidableEq, Repr

/-- JSON body returned by the /api/webhook/test proxy. -/
structure ProxyReply where
  success : Bool
  status : Option Nat
  response : Option (List Char)
  error : Option String
deriving DecidableEq, Repr

/-- Server proxy handler for POST /api/webhook/test
(src/unnamed/part_001 lines 13-34), after its URL-presence validation.
On an upstream reply it answers HTTP 200 with success set iff the upstream
status is in [200,300) and the body truncated to 500 characters; on a
network error the catch block answers HTTP 500 with success false and the
error message. The first component is the HTTP status of the proxy
response itself. -/
def webhookProxy (outcome : UpstreamOutcome) : Nat × ProxyReply :=
  match outcome with
  | UpstreamOutcome.reply status body =>
      (200, { success := decide (200 ≤ status ∧ status < 300),
              status := some status,
              response := some (body.take 500),
              error := none })
  | UpstreamOutcome.netError msg =>
      (500, { success := false, status := none, response := none, error := some msg })

/-- Outcome of the fetch that fireWebhook makes to the proxy: either the
parsed JSON reply, or a thrown network error. -/
inductive FetchOutcome
  | reply (r : ProxyReply)
  | netError (msg : String)
deriving DecidableEq, Repr

/-- Result object that fireWebhook hands back to the tool-call handler. -/
structure ClientWebhookResult where
  success : Bool
  status : Option Nat
  response : Option (List Char)
  error : Option String
deriving DecidableEq, Repr

/-- Client-side dispatcher fireWebhook
(src/dashboard/components/voice-test.js lines 99-115): forwards success,
status and response from the proxy reply, and on a thrown fetch error
returns success false with the error message instead of propagating the
exception. -/
def fireWebhook (outcome : FetchOutcome) : ClientWebhookResult :=
  match outcome with
  | FetchOutcome.reply r =>
      { success := r.success, status := r.status, response := r.response, error := none }
  | FetchOutcome.netError msg =>
      { success := false, status := none, response := none, error := some msg }

/- ── ToolCallBridge (voice-test.js dc.onmessage, function-call case) ── -/

/-- Kinds of transcript lines appended by the function-call handler. -/
inductive TranscriptKind
  | calling
  | succeeded
  | failed
  | notConfigured
deriving DecidableEq, Repr

/-- Payload of the function_call_output item sent back to the model
(the JSON.stringify argument in voice-test.js lines 329-336). -/
structure ToolResultPayload where
  success : Bool
  info : String
deriving DecidableEq, Repr

/-- Events sent on the data channel by the function-call handler. -/
inductive OutEvent
  | functionCallOutput (callId : String) (output : ToolResultPayload)
  | responseCreate
deriving DecidableEq, Repr

/-- Observable output of one run of the function-call handler: webhook
URLs actually dispatched, transcript lines appended in order, and data
channel events sent in order. -/
structure BridgeOutput where
  webhookCalls : List String
  transcript : List TranscriptKind
  events : List OutEvent
deriving DecidableEq, Repr

/-- Lookup in the toolWebhookMap object (tool name to webhook URL). -/
def lookupTool : List (String × String) → String → Option String
  | [], _ => none
  | (k, v) :: rest, name => if k == name then some v else lookupTool rest name

/-- Handler of the response.function_call_arguments.done event
(src/dashboard/components/voice-test.js lines 306-359). The dispatchResult
argument stands for what fireWebhook would return for the bound URL; it is
consulted only when the lookup succeeds, and the webhookCalls field
records which URLs were actually dispatched. Events are sent only when
the data channel is open (the dc.readyState guard at line 340). -/
def handleFunctionCall (toolWebhookMap : List (String × String))
    (toolName callId : String) (dispatchResult : ClientWebhookResult)
    (dcOpen : Bool) : BridgeOutput :=
  match lookupTool toolWebhookMap toolName with
  | some url =>
      let line := if dispatchResult.success then TranscriptKind.succeeded else TranscriptKind.failed
      let payload : ToolResultPayload :=
        if dispatchResult.success then
          { success := true, info := "Webhook delivered successfully" }
        else
          { success := false, info := dispatchResult.error.getD "Webhook failed" }
      { webhookCalls := [url],
        transcript := [TranscriptKind.calling, line],
        events :=
          if dcOpen then
            [OutEvent.functionCallOutput callId payload, OutEvent.responseCreate]
          else [] }
  | none =>
      { webhookCalls := [],
        transcript := [TranscriptKind.calling, TranscriptKind.notConfigured],
        events :=
          if dcOpen then
            [OutEvent.functionCallOutput callId
               { success := false, info := "No webhook URL configured" },
             OutEvent.responseCreate]
          else [] }

/-- Discriminator for function-result events. -/
def isFunctionCallOutput : OutEvent → Bool
  | OutEvent.functionCallOutput _ _ => true
  | OutEvent.responseCreate => false

/-- Discriminator for continuation-request events. -/
def isResponseCreate : OutEvent → Bool
  | OutEvent.responseCreate => true
  | OutEvent.functionCallOutput _ _ => false

/- ── CredentialBroker (src/dashboard/api/realtime/token.js) ── -/

/-- Parsed JSON of the credential-issuance response, together with its
HTTP status: errorMessage models result.error?.message, value models
result.value, clientSecretValue models result.client_secret?.value
(absent or falsy fields are none). -/
structure IssuanceResponse where
  status : Nat
  errorMessage : Option String
  value : Option String
  clientSecretValue : Option String
  expiresAt : Option Nat
deriving DecidableEq, Repr

/-- Reply of the token handler: an error JSON with an HTTP status, or a
200 JSON carrying the (possibly absent) token and expiry. -/
inductive TokenReply
  | err (status : Nat) (msg : String)
  | ok (token : Option String) (expiresAt : Option Nat)
deriving DecidableEq, Repr

/-- Handler for POST /api/realtime/token
(src/dashboard/api/realtime/token.js): with no API key it answers 500;
on a non-2xx issuance response it forwards the status with the remote
error message (or a default); on a 2xx response it answers 200 with the
token read from result.value, falling back to result.client_secret.value,
even when both are absent. -/
def tokenHandler (apiKey : Option String) (resp : IssuanceResponse) : TokenReply :=
  match apiKey with
  | none => TokenReply.err 500 "OPENAI_API_KEY not configured"
  | some _ =>
      if 200 ≤ resp.status ∧ resp.status < 300 then
        TokenReply.ok (resp.value.orElse fun _ => resp.clientSecretValue) resp.expiresAt
      else
        TokenReply.err resp.status (resp.errorMessage.getD "Token creation failed")

/-- Whether a token-handler reply is an error reply. -/
def isErrReply : TokenReply → Bool
  | TokenReply.err _ _ => true
  | TokenReply.ok _ _ => false

/-- The credential value carried by a token-handler reply, if any. -/
def replyToken : TokenReply → Option String
  | TokenReply.err _ _ => none
  | TokenReply.ok t _ => t

/- ── ToolSchemaBuilder name normalization (webhook-builder.js 281-285) ── -/

/-- Characters accepted by the character class [a-z0-9_]. -/
def isSafeChar (c : Char) : Bool :=
  ('a' ≤ c && c ≤ 'z') || ('0' ≤ c && c ≤ '9') || c == '_'

/-- Per-character action of replace([^a-z0-9_], underscore). -/
def sanitizeChar (c : Char) : Char :=
  if isSafeChar c then c else '_'

/-- Action of replace(runs of underscore, single underscore): the flag
records whether the previous emitted character of the current run was an
underscore. -/
def collapseAux : Bool → List Char → List Char
  | _, [] => []
  | prevUnd, c :: rest =>
      if c = '_' then
        if prevUnd then collapseAux true rest
        else '_' :: collapseAux true rest
      else
        c :: collapseAux false rest

/-- Removes a single leading underscore, as the anchored alternative in
the stripping regex does. -/
def dropOneLead : List Char → List Char
  | [] => []
  | c :: rest => if c = '_' then rest else c :: rest

/-- Removes a single trailing underscore, as the anchored alternative in
the stripping regex does. -/
def dropOneTrail : List Char → List Char
  | [] => []
  | [c] => if c = '_' then [] else [c]
  | c :: c2 :: rest => c :: dropOneTrail (c2 :: rest)

/-- Full normalization pipeline of buildToolsFromWebhooks
(src/dashboard/components/webhook-builder.js lines 281-285) on the
character list: lowercase, sanitize, collapse underscore runs, strip one
leading and one trailing underscore. -/
def normalizeChars (name : List Char) : List Char :=
  dropOneTrail (dropOneLead (collapseAux false ((name.map Char.toLower).map sanitizeChar)))

/-- Tool name derived from a webhook name, with the default applied when
normalization leaves the empty string (the trailing or-expression in the
source). -/
def toolNameFromWebhookName (name : String) : String :=
  let n := normalizeChars name.toList
  if n.isEmpty then "webhook_action" else String.mk n

/-- Checks that no two adjacent characters are both underscores. -/
def noDoubleUnd : List Char → Bool
  | [] => true
  | [_] => true
  | c :: c2 :: rest => !(c == '_' && c2 == '_') && noDoubleUnd (c2 :: rest)

/- ── Session cleanup (voice-test.js lines 76-96) ── -/

/-- Mutable runtime state of the voice-test session that cleanup touches.
Handles are modelled as Option values (none models null). -/
structure SessionState where
  isActive : Bool
  sessionTimer : Option Nat
  dc : Option Nat
  pc : Option Nat
  localStreamTracks : Option (List Nat)
  audioEl : Option Nat
  btnRecording : Bool
  btnLabel : String
  btnDisabled : Bool
  vizActive : Bool
  toolWebhookMap : List (String × String)
deriving DecidableEq, Repr

/-- Idle label restored on the start button by cleanup. -/
def micLabel : String := "mic"

/-- Teardown function cleanup
(src/dashboard/components/voice-test.js lines 76-96): each release step is
guarded on the handle being present, every handle is nulled, the timer is
cleared, the controls are reset and the tool map is emptied. -/
def cleanup (s : SessionState) : SessionState :=
  let s1 := { s with isActive := false }
  let s2 :=
    match s1.sessionTimer with
    | some _ => { s1 with sessionTimer := none }
    | none => s1
  let s3 :=
    match s2.dc with
    | some _ => { s2 with dc := none }
    | none => s2
  let s4 :=
    match s3.pc with
    | some _ => { s3 with pc := none }
    | none => s3
  let s5 :=
    match s4.localStreamTracks with
    | some _ => { s4 with localStreamTracks := none }
    | none => s4
  let s6 :=
    match s5.audioEl with
    | some _ => { s5 with audioEl := none }
    | none => s5
  { s6 with btnRecording := false, btnLabel := micLabel, btnDisabled := false,
            vizActive := false, toolWebhookMap := [] }

/- ── Bookkeeping-field stripping (token.js 38-43, launch.js 32-39) ── -/

/-- Whether a tool-object key is one of the internal bookkeeping keys
that the rest-destructuring removes. -/
def isBookkeepingKey (k : String) : Bool :=
  k == "_webhookUrl" || k == "_webhookId"

/-- Rest-destructuring of one tool object
(the map callback in token.js lines 39-42 and launch.js lines 35-38):
every key except the two bookkeeping keys survives, in order. Tool
objects are modelled as ordered key-value lists. -/
def stripToolFields (t : List (String × String)) : List (String × String) :=
  t.filter fun kv => !(isBookkeepingKey kv.1)

/-- Tool list embedded in the credential-issuance request body
(src/dashboard/api/realtime/token.js lines 38-43). -/
def sanitizeToolsForToken (ts : List (List (String × String))) : List (List (String × String)) :=
  ts.map stripToolFields

/-- Tool list persisted by the bot-launch handler
(src/dashboard/api/recall/launch.js lines 32-39). -/
def sanitizeToolsForLaunch (ts : List (List (String × String))) : List (List (String × String)) :=
  ts.map stripToolFields

/-- Two tool objects agree outside the bookkeeping fields: same keys in
the same order, and equal values at every non-bookkeeping key. -/
def AgreeOutsideBookkeeping (t1 t2 : List (String × String)) : Prop :=
  List.Forall₂ (fun a b => a.1 = b.1 ∧ (isBookkeepingKey a.1 = false → a.2 = b.2)) t1 t2

/- ── Helper lemmas on the name normalization pipeline ── -/

/-- Sanitized characters always lie in the safe class. -/
theorem isSafeChar_sanitizeChar (c : Char) : isSafeChar (sanitizeChar c) = true := by
  unfold sanitizeChar
  split
  · assumption
  · decide

/-- Collapsing underscore runs preserves the all-safe property, since the
only character it can emit that was not in the input is an underscore. -/
theorem collapseAux_all_safe : ∀ (b : Bool) (l : List Char),
    l.all isSafeChar = true → (collapseAux b l).all isSafeChar = true := by
  intro b l
  induction l generalizing b with
  | nil => intro h; exact h
  | cons c rest ih =>
      intro h
      rw [List.all_cons, Bool.and_eq_true] at h
      obtain ⟨hc, hrest⟩ := h
      by_cases hcu : c = '_'
      · subst hcu
        cases b with
        | true => simpa [collapseAux] using ih true hrest
        | false =>
            rw [show collapseAux false ('_' :: rest) = '_' :: collapseAux true rest from rfl,
                List.all_cons, Bool.and_eq_true]
            exact ⟨by decide, ih true hrest⟩
      · simp only [collapseAux, if_neg hcu, List.all_cons, Bool.and_eq_true]
        exact ⟨hc, ih false hrest⟩

/-- After a run has just been collapsed, the next emitted character is
never an underscore. -/
theorem collapseAux_true_head : ∀ l : List Char, (collapseAux true l).head? ≠ some '_' := by
  intro l
  induction l with
  | nil => simp [collapseAux]
  | cons c rest ih =>
      by_cases hcu : c = '_'
      · subst hcu; simpa [collapseAux] using ih
      · simp only [collapseAux, if_neg hcu, List.head?_cons, ne_eq, Option.some.injEq]
        exact hcu

/-- The tail of a list without double underscores has none either. -/
theorem noDoubleUnd_tail : ∀ (c : Char) (l : List Char),
    noDoubleUnd (c :: l) = true → noDoubleUnd l = true := by
  intro c l h
  cases l with
  | nil => rfl
  | cons c2 rest =>
      rw [show noDoubleUnd (c :: c2 :: rest)
            = (!(c == '_' && c2 == '_') && noDoubleUnd (c2 :: rest)) from rfl,
          Bool.and_eq_true] at h
      exact h.2

/-- Prepending a character keeps the no-double-underscore property as
long as it does not create an adjacent pair of underscores. -/
theorem noDoubleUnd_cons : ∀ (c : Char) (l : List Char),
    noDoubleUnd l = true → (c = '_' → l.head? ≠ some '_') →
    noDoubleUnd (c :: l) = true := by
  intro c l hl hc
  cases l with
  | nil => rfl
  | cons c2 rest =>
      rw [show noDoubleUnd (c :: c2 :: rest)
            = (!(c == '_' && c2 == '_') && noDoubleUnd (c2 :: rest)) from rfl,
          Bool.and_eq_true]
      refine ⟨?_, hl⟩
      by_cases hcu : c = '_'
      · have h2 : c2 ≠ '_' := by
          intro hc2
          exact hc hcu (by simp [hc2])
        simp [hcu, h2]
      · simp [hcu]

/-- Collapsing underscore runs never produces two adjacent underscores. -/
theorem noDoubleUnd_collapseAux : ∀ (b : Bool) (l : List Char),
    noDoubleUnd (collapseAux b l) = true := by
  intro b l
  induction l generalizing b with
  | nil => rfl
  | cons c rest ih =>
      by_cases hcu : c = '_'
      · subst hcu
        cases b with
        | true => simpa [collapseAux] using ih true
        | false =>
            simp only [collapseAux, if_pos rfl, Bool.false_eq_true]
            exact noDoubleUnd_cons '_' _ (ih true) (fun _ => collapseAux_true_head rest)
      · simp only [collapseAux, if_neg hcu]
        exact noDoubleUnd_cons c _ (ih false) (fun h => absurd h hcu)

/-- Dropping one leading underscore preserves an all-characters property. -/
theorem dropOneLead_all (p : Char → Bool) : ∀ l : List Char,
    l.all p = true → (dropOneLead l).all p = true := by
  intro l h
  cases l with
  | nil => exact h
  | cons c rest =>
      rw [show dropOneLead (c :: rest) = if c = '_' then rest else c :: rest from rfl]
      rw [List.all_cons, Bool.and_eq_true] at h
      by_cases hcu : c = '_'
      · rw [if_pos hcu]; exact h.2
      · rw [if_neg hcu, List.all_cons, Bool.and_eq_true]; exact h

/-- Dropping one leading underscore preserves no-double-underscore. -/
theorem dropOneLead_noDoubleUnd : ∀ l : List Char,
    noDoubleUnd l = true → noDoubleUnd (dropOneLead l) = true := by
  intro l h
  cases l with
  | nil => exact h
  | cons c rest =>
      rw [show dropOneLead (c :: rest) = if c = '_' then rest else c :: rest from rfl]
      by_cases hcu : c = '_'
      · rw [if_pos hcu]; exact noDoubleUnd_tail c rest h
      · rw [if_neg hcu]; exact h

/-- After dropping the leading underscore of a list without double
underscores, the head is never an underscore. -/
theorem dropOneLead_head : ∀ l : List Char,
    noDoubleUnd l = true → (dropOneLead l).head? ≠ some '_' := by
  intro l h
  cases l with
  | nil => simp [dropOneLead]
  | cons c rest =>
      rw [show dropOneLead (c :: rest) = if c = '_' then rest else c :: rest from rfl]
      by_cases hcu : c = '_'
      · rw [if_pos hcu]
        subst hcu
        cases rest with
        | nil => simp
        | cons c2 r2 =>
            rw [show noDoubleUnd ('_' :: c2 :: r2)
                  = (!('_' == '_' && c2 == '_') && noDoubleUnd (c2 :: r2)) from rfl,
                Bool.and_eq_true] at h
            have h2 : c2 ≠ '_' := by
              intro hc2
              simp [hc2] at h
            simpa using h2
      · rw [if_neg hcu]
        simpa using hcu

/-- Dropping one trailing underscore preserves an all-characters
property. -/
theorem dropOneTrail_all (p : Char → Bool) : ∀ l : List Char,
    l.all p = true → (dropOneTrail l).all p = true
  | [], h => h
  | [c], h => by
      rw [show dropOneTrail [c] = if c = '_' then [] else [c] from rfl]
      by_cases hcu : c = '_'
      · rw [if_pos hcu]; rfl
      · rw [if_neg hcu]; exact h
  | c :: c2 :: rest, h => by
      rw [show dropOneTrail (c :: c2 :: rest) = c :: dropOneTrail (c2 :: rest) from rfl]
      rw [List.all_cons, Bool.and_eq_true] at h
      rw [List.all_cons, Bool.and_eq_true]
      exact ⟨h.1, dropOneTrail_all p (c2 :: rest) h.2⟩

/-- The head survives dropping one trailing underscore, unless the whole
list collapses to nothing. -/
theorem dropOneTrail_head : ∀ l : List Char,
    (dropOneTrail l).head? = l.head? ∨ dropOneTrail l = []
  | [] => Or.inl rfl
  | [c] => by
      rw [show dropOneTrail [c] = if c = '_' then [] else [c] from rfl]
      by_cases hcu : c = '_'
      · rw [if_pos hcu]; exact Or.inr rfl
      · rw [if_neg hcu]; exact Or.inl rfl
  | c :: c2 :: rest => by
      rw [show dropOneTrail (c :: c2 :: rest) = c :: dropOneTrail (c2 :: rest) from rfl]
      exact Or.inl rfl

/-- Dropping one trailing underscore of a list whose result is empty
means the list was exactly one underscore. -/
theorem dropOneTrail_eq_nil : ∀ (x : Char) (xs : List Char),
    dropOneTrail (x :: xs) = [] → x = '_' ∧ xs = []
  | x, [], h => by
      rw [show dropOneTrail [x] = if x = '_' then [] else [x] from rfl] at h
      by_cases hcu : x = '_'
      · exact ⟨hcu, rfl⟩
      · rw [if_neg hcu] at h
        exact absurd h (by simp)
  | x, x2 :: r2, h => by
      rw [show dropOneTrail (x :: x2 :: r2) = x :: dropOneTrail (x2 :: r2) from rfl] at h
      exact absurd h (by simp)

/-- Dropping one trailing underscore preserves no-double-underscore. -/
theorem dropOneTrail_noDoubleUnd : ∀ l : List Char,
    noDoubleUnd l = true → noDoubleUnd (dropOneTrail l) = true
  | [], h => h
  | [c], h => by
      rw [show dropOneTrail [c] = if c = '_' then [] else [c] from rfl]
      by_cases hcu : c = '_'
      · rw [if_pos hcu]; rfl
      · rw [if_neg hcu]; exact h
  | c :: c2 :: rest, h => by
      rw [show dropOneTrail (c :: c2 :: rest) = c :: dropOneTrail (c2 :: rest) from rfl]
      have htail := noDoubleUnd_tail c (c2 :: rest) h
      refine noDoubleUnd_cons c _ (dropOneTrail_noDoubleUnd (c2 :: rest) htail) ?_
      intro hcu
      rcases dropOneTrail_head (c2 :: rest) with hh | hnil
      · rw [hh]
        rw [show noDoubleUnd (c :: c2 :: rest)
              = (!(c == '_' && c2 == '_') && noDoubleUnd (c2 :: rest)) from rfl,
            Bool.and_eq_true] at h
        have : c2 ≠ '_' := by
          intro hc2
          simp [hcu, hc2] at h
        simpa using this
      · rw [hnil]
        simp

/-- Dropping one trailing underscore of a list without double underscores
leaves no trailing underscore. -/
theorem dropOneTrail_getLast : ∀ l : List Char,
    noDoubleUnd l = true → (dropOneTrail l).getLast? ≠ some '_'
  | [], _ => by simp [dropOneTrail]
  | [c], _ => by
      rw [show dropOneTrail [c] = if c = '_' then [] else [c] from rfl]
      by_cases hcu : c = '_'
      · rw [if_pos hcu]; simp
      · rw [if_neg hcu]
        simpa using hcu
  | c :: c2 :: rest, h => by
      rw [show dropOneTrail (c :: c2 :: rest) = c :: dropOneTrail (c2 :: rest) from rfl]
      cases hd : dropOneTrail (c2 :: rest) with
      | nil =>
          obtain ⟨hc2, hrest⟩ := dropOneTrail_eq_nil c2 rest hd
          subst hc2; subst hrest
          rw [show noDoubleUnd (c :: '_' :: ([] : List Char))
                = (!(c == '_' && '_' == '_') && noDoubleUnd ('_' :: ([] : List Char))) from rfl,
              Bool.and_eq_true] at h
          have : c ≠ '_' := by
            intro hcu
            simp [hcu] at h
          simpa using this
      | cons e es =>
          rw [List.getLast?_cons_cons]
          rw [← hd]
          exact dropOneTrail_getLast (c2 :: rest) (noDoubleUnd_tail c (c2 :: rest) h)

/-- The head never survives as an underscore through dropOneTrail. -/
theorem dropOneTrail_head_ne : ∀ l : List Char,
    l.head? ≠ some '_' → (dropOneTrail l).head? ≠ some '_' := by
  intro l h
  rcases dropOneTrail_head l with hh | hnil
  · rw [hh]; exact h
  · rw [hnil]; simp

/-- Combined shape facts about the normalization pipeline output. -/
theorem normalizeChars_spec (name : List Char) :
    (normalizeChars name).all isSafeChar = true
    ∧ noDoubleUnd (normalizeChars name) = true
    ∧ (normalizeChars name).head? ≠ some '_'
    ∧ (normalizeChars name).getLast? ≠ some '_' := by
  unfold normalizeChars
  have hsan : ((name.map Char.toLower).map sanitizeChar).all isSafeChar = true := by
    rw [List.all_eq_true]
    intro x hx
    rw [List.mem_map] at hx
    obtain ⟨y, _, hy⟩ := hx
    rw [← hy]
    exact isSafeChar_sanitizeChar y
  have hcol := collapseAux_all_safe false _ hsan
  have hnd := noDoubleUnd_collapseAux false ((name.map Char.toLower).map sanitizeChar)
  refine ⟨?_, ?_, ?_, ?_⟩
  · exact dropOneTrail_all _ _ (dropOneLead_all _ _ hcol)
  · exact dropOneTrail_noDoubleUnd _ (dropOneLead_noDoubleUnd _ hnd)
  · exact dropOneTrail_head_ne _ (dropOneLead_head _ hnd)
  · exact dropOneTrail_getLast _ (dropOneLead_noDoubleUnd _ hnd)

/-- Tool objects that agree outside the bookkeeping fields strip to the
same transmitted object. -/
theorem stripToolFields_agree : ∀ {t1 t2 : List (String × String)},
    AgreeOutsideBookkeeping t1 t2 → stripToolFields t1 = stripToolFields t2 := by
  intro t1 t2 h
  induction h with
  | nil => rfl
  | @cons a b l1 l2 hab htail ih =>
      obtain ⟨hk, hv⟩ := hab
      unfold stripToolFields at ih ⊢
      rw [List.filter_cons, List.filter_cons]
      cases hbk : isBookkeepingKey a.1 with
      | true =>
          have hbk2 : isBookkeepingKey b.1 = true := by rw [← hk]; exact hbk
          simp only [hbk, hbk2, Bool.not_true, Bool.false_eq_true, if_neg]
          · exact ih
      | false =>
          have hbk2 : isBookkeepingKey b.1 = false := by rw [← hk]; exact hbk
          have hab2 : a = b := by
            obtain ⟨a1, a2⟩ := a
            obtain ⟨b1, b2⟩ := b
            simp only at hk hv
            rw [hk, hv hbk]
          simp only [hbk, hbk2, Bool.not_false, if_pos]
          rw [hab2, ih]

/-- Every key-value pair surviving the strip has a non-bookkeeping key. -/
theorem stripToolFields_keys : ∀ (t : List (String × String)) (kv : String × String),
    kv ∈ stripToolFields t → isBookkeepingKey kv.1 = false := by
  intro t kv h
  unfold stripToolFields at h
  rw [List.mem_filter] at h
  have := h.2
  rwa [Bool.not_eq_true'] at this

/- ── Claim theorems ── -/

/-- Claim C1, counterexample: on a poll response with status
"fatal_error" the monitor does map the local state to Failed (error), but
the polling timer is not cleared, because the auto-stop check of
startStatusPolling looks only for "done" and "ended"; further polls
therefore still occur. -/
theorem fatal_error_polling_continues :
    pollTick { timerActive := true, uiState := UiState.joining } "fatal_error"
      = { timerActive := true, uiState := UiState.error } := by
  decide

/-- Claim C1, amended: a poll response whose status contains "fatal" or
"error" and matches none of the earlier patterns maps the local state to
Failed (error), but the polling timer keeps running, since polling stops
only for statuses containing "done" or "ended". -/
theorem fatal_error_maps_failed_polling_continues :
    ∀ (u : UiState) (s : String),
    hasSub s "in_call" = false → (s == "active") = false →
    hasSub s "joining" = false → (s == "scheduling") = false → (s == "joining") = false →
    hasSub s "waiting_room" = false →
    hasSub s "done" = false → hasSub s "ended" = false → (s == "ended") = false →
    (hasSub s "fatal" || hasSub s "error") = true →
    pollTick { timerActive := true, uiState := u } s
      = { timerActive := true, uiState := UiState.error } := by
  intro u s h1 h2 h3 h4 h5 h6 h7 h8 h9 h10
  simp [pollTick, pollShouldStop, updateStatusUiState, h1, h2, h3, h4, h5, h6, h7, h8, h9, h10]

/-- Claim C1, amended, witness at the concrete status "fatal_error". -/
theorem fatal_error_maps_failed_polling_continues_witness :
    pollTick { timerActive := true, uiState := UiState.inCall } "fatal_error"
      = { timerActive := true, uiState := UiState.error } :=
  fatal_error_maps_failed_polling_continues UiState.inCall "fatal_error"
    (by decide) (by decide) (by decide) (by decide) (by decide) (by decide)
    (by decide) (by decide) (by decide) (by decide)

/-- Claim C2, counterexample: with the provider secret available and a
2xx issuance response that carries no credential value at either
result.value or result.client_secret.value, the token handler does not
fail: it answers 200 with no token, instead of returning an error
result. -/
theorem token_missing_value_not_an_error :
    isErrReply (tokenHandler (some "sk-test")
        { status := 200, errorMessage := none, value := none,
          clientSecretValue := none, expiresAt := some 3600 }) = false
    ∧ replyToken (tokenHandler (some "sk-test")
        { status := 200, errorMessage := none, value := none,
          clientSecretValue := none, expiresAt := some 3600 }) = none := by
  decide

/-- Claim C2, amended: the token handler returns an error result in
exactly two cases, a missing provider secret or a non-2xx issuance
response (whose error message is surfaced, with a default); on a 2xx
response it answers 200 with the token taken from the flat location,
falling back to the nested one, and when both are absent the 200 reply
simply carries no token (the caller detects the absence). -/
theorem token_handler_failure_cases :
    ∀ (apiKey : Option String) (resp : IssuanceResponse),
    (isErrReply (tokenHandler apiKey resp) = true
        ↔ (apiKey = none ∨ ¬(200 ≤ resp.status ∧ resp.status < 300)))
    ∧ (tokenHandler none resp = TokenReply.err 500 "OPENAI_API_KEY not configured")
    ∧ (∀ k, apiKey = some k → ¬(200 ≤ resp.status ∧ resp.status < 300) →
        tokenHandler apiKey resp
          = TokenReply.err resp.status (resp.errorMessage.getD "Token creation failed"))
    ∧ (∀ k, apiKey = some k → (200 ≤ resp.status ∧ resp.status < 300) →
        tokenHandler apiKey resp
          = TokenReply.ok (resp.value.orElse fun _ => resp.clientSecretValue) resp.expiresAt) := by
  intro apiKey resp
  refine ⟨?_, ?_, ?_, ?_⟩
  · cases apiKey with
    | none => simp [tokenHandler, isErrReply]
    | some k =>
        by_cases h2 : 200 ≤ resp.status ∧ resp.status < 300
        · simp [tokenHandler, isErrReply, h2]
        · simp [tokenHandler, isErrReply, h2]
  · rfl
  · intro k hk h2
    subst hk
    simp [tokenHandler, h2]
  · intro k hk h2
    subst hk
    simp [tokenHandler, h2]

/-- Claim C2, amended, witness: a concrete non-2xx issuance response is
turned into an error reply that surfaces the remote message. -/
theorem token_handler_failure_cases_witness :
    tokenHandler (some "sk-test")
        { status := 503, errorMessage := some "upstream down", value := none,
          clientSecretValue := none, expiresAt := none }
      = TokenReply.err 503 "upstream down" :=
  (token_handler_failure_cases (some "sk-test")
      { status := 503, errorMessage := some "upstream down", value := none,
        clientSecretValue := none, expiresAt := none }).2.2.1
    "sk-test" rfl (by decide)

/-- Claim C3: on a tool-call event whose name is bound in the map and a
successful dispatch, with the data channel open, the handler sends
exactly one function-result event followed by exactly one
continuation-request event, and the transcript gains exactly one
succeeded line. -/
theorem tool_call_success_sends_result_then_continue :
    ∀ (map : List (String × String)) (toolName callId url : String)
      (r : ClientWebhookResult),
    lookupTool map toolName = some url → r.success = true →
    (handleFunctionCall map toolName callId r true).events
      = [OutEvent.functionCallOutput callId
           { success := true, info := "Webhook delivered successfully" },
         OutEvent.responseCreate]
    ∧ ((handleFunctionCall map toolName callId r true).events.filter
        isFunctionCallOutput).length = 1
    ∧ ((handleFunctionCall map toolName callId r true).events.filter
        isResponseCreate).length = 1
    ∧ (handleFunctionCall map toolName callId r true).transcript
      = [TranscriptKind.calling, TranscriptKind.succeeded]
    ∧ ((handleFunctionCall map toolName callId r true).transcript.filter
        (fun t => t == TranscriptKind.succeeded)).length = 1 := by
  intro map toolName callId url r hl hs
  simp [handleFunctionCall, hl, hs, isFunctionCallOutput, isResponseCreate, List.filter]

/-- Claim C3, witness at a concrete one-entry map and successful
dispatch result. -/
theorem tool_call_success_sends_result_then_continue_witness :
    (handleFunctionCall [("book_job", "https://x/y")] "book_job" "call_1"
        { success := true, status := some 200, response := some [], error := none }
        true).events
      = [OutEvent.functionCallOutput "call_1"
           { success := true, info := "Webhook delivered successfully" },
         OutEvent.responseCreate] :=
  (tool_call_success_sends_result_then_continue
      [("book_job", "https://x/y")] "book_job" "call_1" "https://x/y"
      { success := true, status := some 200, response := some [], error := none }
      (by decide) rfl).1

/-- Claim C4: the dispatcher reports success exactly when the upstream
HTTP status is in [200,300); the forwarded body is truncated to at most
500 characters; and a network failure at either layer yields a result
with success false and a descriptive error instead of an exception (both
handlers are total functions). The last conjunct checks that the
client-side fireWebhook forwards the proxy verdict unchanged. -/
theorem webhook_dispatcher_contract :
    (∀ (st : Nat) (body : List Char),
        ((webhookProxy (UpstreamOutcome.reply st body)).2.success = true
          ↔ (200 ≤ st ∧ st < 300))
        ∧ ((webhookProxy (UpstreamOutcome.reply st body)).2.response.getD []).length ≤ 500)
    ∧ (∀ msg, (webhookProxy (UpstreamOutcome.netError msg)).2.success = false
        ∧ (webhookProxy (UpstreamOutcome.netError msg)).2.error = some msg)
    ∧ (∀ msg, (fireWebhook (FetchOutcome.netError msg)).success = false
        ∧ (fireWebhook (FetchOutcome.netError msg)).error = some msg)
    ∧ (∀ o, (fireWebhook (FetchOutcome.reply (webhookProxy o).2)).success
          = (webhookProxy o).2.success
        ∧ (fireWebhook (FetchOutcome.reply (webhookProxy o).2)).response
          = (webhookProxy o).2.response) := by
  refine ⟨?_, ?_, ?_, ?_⟩
  · intro st body
    constructor
    · simp [webhookProxy]
    · simp only [webhookProxy, Option.getD_some, List.length_take]
      exact min_le_left _ _
  · intro msg; exact ⟨rfl, rfl⟩
  · intro msg; exact ⟨rfl, rfl⟩
  · intro o; exact ⟨rfl, rfl⟩

/-- Claim C5: a poll response with status "call_ended" maps the local
state to Ended (done) and clears the polling timer, without any
operator-initiated stop request being involved. -/
theorem call_ended_ends_session_and_stops_polling :
    ∀ u : UiState, pollTick { timerActive := true, uiState := u } "call_ended"
      = { timerActive := false, uiState := UiState.done } := by
  intro u
  rfl

/-- Claim C6: every derived tool name is nonempty, consists only of
characters from [a-z0-9_], contains no run of two underscores, and
neither starts nor ends with an underscore; the name "Book Appointment!!"
normalizes to "book_appointment", and a name that normalizes to nothing
falls back to "webhook_action". -/
theorem derived_tool_name_safe :
    (∀ name : String,
      toolNameFromWebhookName name ≠ ""
      ∧ (toolNameFromWebhookName name).toList.all isSafeChar = true
      ∧ noDoubleUnd (toolNameFromWebhookName name).toList = true
      ∧ (toolNameFromWebhookName name).toList.head? ≠ some '_'
      ∧ (toolNameFromWebhookName name).toList.getLast? ≠ some '_')
    ∧ toolNameFromWebhookName "Book Appointment!!" = "book_appointment"
    ∧ toolNameFromWebhookName "!!!" = "webhook_action" := by
  refine ⟨?_, by decide, by decide⟩
  intro name
  unfold toolNameFromWebhookName
  cases he : (normalizeChars name.toList).isEmpty with
  | true =>
      rw [if_pos he]
      refine ⟨by decide, by decide, by decide, by decide, by decide⟩
  | false =>
      have hne : ¬ (normalizeChars name.toList).isEmpty = true := by
        rw [he]; simp
      rw [if_neg hne]
      obtain ⟨ha, hn, hh, hl⟩ := normalizeChars_spec name.toList
      have htl : (String.mk (normalizeChars name.toList)).toList = normalizeChars name.toList := rfl
      refine ⟨?_, ?_, ?_, ?_, ?_⟩
      · intro hcon
        have : normalizeChars name.toList = [] := congrArg String.toList hcon
        rw [this] at he
        simp at he
      · rw [htl]; exact ha
      · rw [htl]; exact hn
      · rw [htl]; exact hh
      · rw [htl]; exact hl

/-- Claim C7: on a tool-call event whose name is not bound in the map,
no webhook URL is dispatched, the transcript gains a not-configured line,
and (with the channel open) a function-result event carrying the
structured no-webhook-configured failure payload is sent, followed by the
continuation request. -/
theorem tool_call_unconfigured_no_network :
    ∀ (map : List (String × String)) (toolName callId : String)
      (r : ClientWebhookResult) (dcOpen : Bool),
    lookupTool map toolName = none →
    (handleFunctionCall map toolName callId r dcOpen).webhookCalls = []
    ∧ (handleFunctionCall map toolName callId r dcOpen).transcript
      = [TranscriptKind.calling, TranscriptKind.notConfigured]
    ∧ (dcOpen = true →
        (handleFunctionCall map toolName callId r dcOpen).events
          = [OutEvent.functionCallOutput callId
               { success := false, info := "No webhook URL configured" },
             OutEvent.responseCreate]) := by
  intro map toolName callId r dcOpen hl
  refine ⟨?_, ?_, ?_⟩
  · simp [handleFunctionCall, hl]
  · simp [handleFunctionCall, hl]
  · intro hdc
    subst hdc
    simp [handleFunctionCall, hl]

/-- Claim C7, witness at an empty map. -/
theorem tool_call_unconfigured_no_network_witness :
    (handleFunctionCall [] "book_job" "call_2"
        { success := false, status := none, response := none, error := none }
        true).webhookCalls = []
    ∧ (handleFunctionCall [] "book_job" "call_2"
        { success := false, status := none, response := none, error := none }
        true).transcript
      = [TranscriptKind.calling, TranscriptKind.notConfigured] :=
  ⟨(tool_call_unconfigured_no_network [] "book_job" "call_2"
      { success := false, status := none, response := none, error := none }
      true rfl).1,
   (tool_call_unconfigured_no_network [] "book_job" "call_2"
      { success := false, status := none, response := none, error := none }
      true rfl).2.1⟩

/-- Claim C8: cleanup is idempotent and, from any session state, leaves
all handles null, the timer cleared, the tool map empty and the controls
reset; as a total function it raises no error on repeated invocation. -/
theorem cleanup_idempotent_and_resets :
    ∀ s : SessionState,
    cleanup (cleanup s) = cleanup s
    ∧ (cleanup s).isActive = false
    ∧ (cleanup s).sessionTimer = none
    ∧ (cleanup s).dc = none
    ∧ (cleanup s).pc = none
    ∧ (cleanup s).localStreamTracks = none
    ∧ (cleanup s).audioEl = none
    ∧ (cleanup s).btnRecording = false
    ∧ (cleanup s).btnLabel = micLabel
    ∧ (cleanup s).btnDisabled = false
    ∧ (cleanup s).vizActive = false
    ∧ (cleanup s).toolWebhookMap = [] := by
  intro s
  obtain ⟨a, t, d, p, ls, ae, br, bl, bd, va, m⟩ := s
  cases t <;> cases d <;> cases p <;> cases ls <;> cases ae <;> simp [cleanup]

/-- Claim C9: neither the credential-request body nor the bot-launch
persistence carries the _webhookUrl or _webhookId keys, and two tool
lists that differ only in the values of those bookkeeping fields produce
identical transmitted tool lists at both call sites. -/
theorem transmitted_tools_strip_bookkeeping :
    (∀ (ts : List (List (String × String))) (t : List (String × String))
        (kv : String × String),
        t ∈ sanitizeToolsForToken ts → kv ∈ t → isBookkeepingKey kv.1 = false)
    ∧ (∀ (ts : List (List (String × String))) (t : List (String × String))
        (kv : String × String),
        t ∈ sanitizeToolsForLaunch ts → kv ∈ t → isBookkeepingKey kv.1 = false)
    ∧ (∀ ts1 ts2, List.Forall₂ AgreeOutsideBookkeeping ts1 ts2 →
        sanitizeToolsForToken ts1 = sanitizeToolsForToken ts2
        ∧ sanitizeToolsForLaunch ts1 = sanitizeToolsForLaunch ts2) := by
  have hmem : ∀ (ts : List (List (String × String))) (t : List (String × String))
      (kv : String × String),
      t ∈ ts.map stripToolFields → kv ∈ t → isBookkeepingKey kv.1 = false := by
    intro ts t kv ht hkv
    rw [List.mem_map] at ht
    obtain ⟨t0, _, ht0⟩ := ht
    rw [← ht0] at hkv
    exact stripToolFields_keys t0 kv hkv
  have hmap : ∀ ts1 ts2, List.Forall₂ AgreeOutsideBookkeeping ts1 ts2 →
      ts1.map stripToolFields = ts2.map stripToolFields := by
    intro ts1 ts2 h
    induction h with
    | nil => rfl
    | cons hab htail ih =>
        rw [List.map_cons, List.map_cons, stripToolFields_agree hab, ih]
  exact ⟨hmem, hmem, fun ts1 ts2 h => ⟨hmap ts1 ts2 h, hmap ts1 ts2 h⟩⟩

/-- Claim C9, witness: two concrete tool lists differing only in the
bookkeeping values transmit identically. -/
theorem transmitted_tools_strip_bookkeeping_witness :
    sanitizeToolsForToken
        [[("name", "book_job"), ("_webhookUrl", "https://a"), ("_webhookId", "wh_1")]]
      = sanitizeToolsForToken
        [[("name", "book_job"), ("_webhookUrl", "https://b"), ("_webhookId", "wh_2")]] := by
  refine (transmitted_tools_strip_bookkeeping.2.2 _ _ ?_).1
  refine List.Forall₂.cons ?_ List.Forall₂.nil
  exact List.Forall₂.cons ⟨rfl, fun _ => rfl⟩
    (List.Forall₂.cons ⟨rfl, fun h => absurd h (by decide)⟩
      (List.Forall₂.cons ⟨rfl, fun h => absurd h (by decide)⟩ List.Forall₂.nil))

/-- Claim C10: a status code matching none of the recognized patterns is
silently mapped to joining, and the rules are applied in their fixed
order, so a code matching an earlier pattern is never classified by a
later rule. -/
theorem status_mapper_default_and_order :
    (∀ s : String,
      hasSub s "in_call" = false → (s == "active") = false →
      hasSub s "joining" = false → (s == "scheduling") = false → (s == "joining") = false →
      hasSub s "waiting_room" = false →
      hasSub s "done" = false → hasSub s "ended" = false → (s == "ended") = false →
      hasSub s "fatal" = false → hasSub s "error" = false →
      updateStatusUiState s = UiState.joining)
    ∧ (∀ s, (hasSub s "in_call" || s == "active") = true →
        updateStatusUiState s = UiState.inCall)
    ∧ (∀ s, (hasSub s "in_call" || s == "active") = false →
        (hasSub s "joining" || s == "scheduling" || s == "joining") = true →
        updateStatusUiState s = UiState.joining)
    ∧ (∀ s, (hasSub s "in_call" || s == "active") = false →
        (hasSub s "joining" || s == "scheduling" || s == "joining") = false →
        hasSub s "waiting_room" = true →
        updateStatusUiState s = UiState.joining)
    ∧ (∀ s, (hasSub s "in_call" || s == "active") = false →
        (hasSub s "joining" || s == "scheduling" || s == "joining") = false →
        hasSub s "waiting_room" = false →
        (hasSub s "done" || hasSub s "ended" || s == "ended") = true →
        updateStatusUiState s = UiState.done)
    ∧ (∀ s, (hasSub s "in_call" || s == "active") = false →
        (hasSub s "joining" || s == "scheduling" || s == "joining") = false →
        hasSub s "waiting_room" = false →
        (hasSub s "done" || hasSub s "ended" || s == "ended") = false →
        (hasSub s "fatal" || hasSub s "error") = true →
        updateStatusUiState s = UiState.error) := by
  refine ⟨?_, ?_, ?_, ?_, ?_, ?_⟩
  · intro s h1 h2 h3 h4 h5 h6 h7 h8 h9 h10 h11
    simp [updateStatusUiState, h1, h2, h3, h4, h5, h6, h7, h8, h9, h10, h11]
  · intro s h1
    simp [updateStatusUiState, h1]
  · intro s h1 h2
    simp [updateStatusUiState, h1, h2]
  · intro s h1 h2 h3
    simp [updateStatusUiState, h1, h2, h3]
  · intro s h1 h2 h3 h4
    simp [updateStatusUiState, h1, h2, h3, h4]
  · intro s h1 h2 h3 h4 h5
    simp [updateStatusUiState, h1, h2, h3, h4, h5]

/-- Claim C10, witness: an unrecognized code falls through to joining,
and a code containing both an early and a late pattern is classified by
the earlier rule. -/
theorem status_mapper_default_and_order_witness :
    updateStatusUiState "mystery_code" = UiState.joining
    ∧ updateStatusUiState "in_call_error" = UiState.inCall :=
  ⟨status_mapper_default_and_order.1 "mystery_code"
      (by decide) (by decide) (by decide) (by decide) (by decide) (by decide)
      (by decide) (by decide) (by decide) (by decide) (by decide),
   status_mapper_default_and_order.2.1 "in_call_error" (by decide)⟩

end Spec2Proof
